import Mathlib

/-!
Shallow embedding of `src/app.py` (tiny Flask server for the radio mixer
project) together with the Python library semantics the script relies on:
`pathlib.Path.glob` (CPython 3.11 `pathlib._Selector.select_from` /
`_WildcardSelector._select_from`), `fnmatch.translate` pattern matching,
`sorted`, and `int(...)` / `os.environ.get`.

The embedding models a directory as the listing that `os.scandir` would
return (a list of entry names, in arbitrary order), or as missing /
unreadable.
-/

namespace RadioMixer

/-! ### fnmatch-style pattern matching

`Path.glob` on POSIX compiles each pattern component with
`re.compile(fnmatch.translate(pattern)).fullmatch` (case sensitive).
`fnmatch.translate` maps `*` to `.*` (any characters, a leading dot
included — `pathlib` has no hidden-file special case, unlike the `glob`
module), `?` to `.`, and any other character to itself, literally.  The
pattern used by the program, `"*.mp3"`, contains no `[...]` character
class, so classes are not modelled: every character other than `*` and
`?` is a literal. -/

/-- Matching helper for a `*` wildcard: try the rest of the pattern
(given as the matcher `f`) at every suffix of the input, mirroring the
backtracking of `.*` in the translated regular expression. -/
def tryTails (f : List Char → Bool) : List Char → Bool
  | [] => f []
  | c :: cs => f (c :: cs) || tryTails f cs

/-- Matcher for a translated fnmatch pattern against a name, both as
character lists: `*` matches any (possibly empty) run of characters,
`?` matches exactly one character, anything else matches itself. -/
def fnmatchChars : List Char → List Char → Bool
  | [], s => s.isEmpty
  | p :: ps, s =>
    if p = '*' then tryTails (fnmatchChars ps) s
    else
      match s with
      | [] => false
      | c :: cs => (p = '?' || p = c) && fnmatchChars ps cs

/-- Match of one glob pattern component against one entry name
(`_WildcardSelector`'s `self.match(name)`), case sensitive as on POSIX. -/
def globMatch (pat : String) (name : String) : Bool :=
  fnmatchChars pat.data name.data

/-! ### Paths and directory states -/

/-- Purely structural model of a `pathlib.Path`: the list of its parts. -/
structure PyPath where
  parts : List String
deriving DecidableEq

/-- Model of `Path.name`: the final path component. -/
def PyPath.name (p : PyPath) : String :=
  p.parts.getLast?.getD ""

/-- Model of the `/` operator on paths: append one component. -/
def PyPath.child (p : PyPath) (n : String) : PyPath :=
  ⟨p.parts ++ [n]⟩

/-- State of the audio directory as the filesystem presents it:
nonexistent, existing but not readable, or present with the (arbitrarily
ordered) listing that `os.scandir` returns. -/
inductive DirState where
  | missing
  | unreadable
  | present (entries : List String)
deriving DecidableEq

/-- Model of `is_dir` for the directory being globbed. -/
def DirState.isDir : DirState → Bool
  | .missing => false
  | .unreadable => true
  | .present _ => true

/-- Errors an `os.scandir` call can surface in this model. -/
inductive OSErr where
  | fileNotFound
  | permissionDenied
deriving DecidableEq

/-- Model of `os.scandir` on the directory: the entry names, or the
error raised for a missing or unreadable directory. -/
def scandirResult : DirState → Except OSErr (List String)
  | .missing => .error .fileNotFound
  | .unreadable => .error .permissionDenied
  | .present es => .ok es

/-- Model of `Path.glob(pattern)` for a single non-recursive pattern
component, following CPython 3.11 `pathlib`:
`_Selector.select_from` returns an empty iterator when the parent is not
a directory (`if not is_dir(parent_path): return iter([])`), and
`_WildcardSelector._select_from` catches `PermissionError` around the
`scandir` call (`except PermissionError: return`).  Matching entries are
yielded as child paths of the parent, in scandir order. -/
def pathGlob (dir : PyPath) (pat : String) (d : DirState) : Except OSErr (List PyPath) :=
  if d.isDir then
    match scandirResult d with
    | .ok es => .ok ((es.filter (fun n => globMatch pat n)).map dir.child)
    | .error .permissionDenied => .ok []
    | .error e => .error e
  else
    .ok []

/-! ### The module-level code of `app.py` -/

/-- `STATION_COUNT = 4` (app.py line 10). -/
def STATION_COUNT : Nat := 4

/-- `AUDIO_DIR = Path(app.static_folder) / "audio"` (app.py line 16),
with `static_folder="static"`. -/
def AUDIO_DIR : PyPath := ⟨["static", "audio"]⟩

/-- Lexicographic comparison of two character lists by code point,
mirroring CPython `PyUnicode_Compare`: strings are compared element by
element, with a shorter string preceding its extensions. -/
def lexLe : List Char → List Char → Bool
  | [], _ => true
  | _ :: _, [] => false
  | a :: as, b :: bs => if a = b then lexLe as bs else decide (a < b)

/-- Python's `<=` on strings: code-point lexicographic order. -/
def strLe (a b : String) : Bool :=
  lexLe a.data b.data

/-- The string order as a proposition, for use with `List.insertionSort`
and `List.Sorted`. -/
def strLeRel (a b : String) : Prop :=
  strLe a b = true

instance : DecidableRel strLeRel :=
  fun a b => inferInstanceAs (Decidable (strLe a b = true))

/-- Model of Python `sorted` on a list of strings: a stable sort by
code-point lexicographic order. -/
def pySorted (l : List String) : List String :=
  l.insertionSort strLeRel

/-- `AUDIO_FILES = sorted([f.name for f in AUDIO_DIR.glob("*.mp3")])`
(app.py line 17), evaluated against a directory state.  The `Except`
layer records whether the enumeration raises an uncaught filesystem
error. -/
def AUDIO_FILES (audioDir : PyPath) (d : DirState) : Except OSErr (List String) :=
  (pathGlob audioDir "*.mp3" d).map (fun fs => pySorted (fs.map PyPath.name))

/-- Process-wide state held by the module after import: the two
module-level constants the handler reads. -/
structure ServerState where
  stationCount : Nat
  audioFiles : List String
deriving DecidableEq

/-- Importing the module: evaluate lines 10-17 of app.py.  An error from
the enumeration would propagate and abort startup. -/
def startup (d : DirState) : Except OSErr ServerState :=
  (AUDIO_FILES AUDIO_DIR d).map (fun fs => ⟨STATION_COUNT, fs⟩)

/-! ### The request handler -/

/-- Result of rendering `index.html`: the HTTP status and the two values
substituted into the template (app.py lines 25-29). -/
structure Response where
  status : Nat
  stationCount : Nat
  audioFiles : List String
deriving DecidableEq

/-- `index()` (app.py lines 23-29): render the template from the
process-wide state; Flask returns status 200 for a successful render. -/
def index (st : ServerState) : Response :=
  { status := 200, stationCount := st.stationCount, audioFiles := st.audioFiles }

/-- Handling one GET `/` request: the handler returns its response and
leaves the process-wide state as it was (it only reads it). -/
def handle (st : ServerState) : ServerState × Response :=
  (st, index st)

/-- Handling a sequence of `n` GET `/` requests, threading the
process-wide state through. -/
def handleRequests : ServerState → Nat → ServerState × List Response
  | st, 0 => (st, [])
  | st, n + 1 =>
    let (st1, r) := handle st
    let (st2, rs) := handleRequests st1 n
    (st2, r :: rs)

/-! ### The `__main__` block -/

/-- Value space for `os.environ.get("PORT", 5000)`: the lookup yields
either the environment string or the integer default. -/
inductive PyVal where
  | str (s : String)
  | int (n : Int)
deriving DecidableEq

/-- Model of `os.environ.get(key, default)` over an environment given as
a partial map from variable names to strings. -/
def environGet (env : String → Option String) (key : String) (dflt : PyVal) : PyVal :=
  match env key with
  | some v => .str v
  | none => dflt

/-- Whitespace characters stripped by Python `int(str)` before parsing. -/
def isPySpace (c : Char) : Bool :=
  c = ' ' || c = '\t' || c = '\n' || c = '\r' || c = '\x0b' || c = '\x0c'

/-- Tail of a base-10 integer literal after its first digit: digits,
with single underscores allowed only between two digits. -/
def pyDigitsTail : List Char → Bool
  | [] => true
  | '_' :: c :: cs => c.isDigit && pyDigitsTail cs
  | c :: cs => c.isDigit && pyDigitsTail cs

/-- Nonempty base-10 digit run as accepted by Python `int(str)`:
must start with a digit, underscores only between digits. -/
def pyDigits : List Char → Bool
  | [] => false
  | c :: cs => c.isDigit && pyDigitsTail cs

/-- Numeric value of a digit run, ignoring the underscore separators. -/
def digitsVal (l : List Char) : Nat :=
  (l.filter (fun c => c ≠ '_')).foldl (fun acc c => 10 * acc + (c.toNat - '0'.toNat)) 0

/-- Strip leading and trailing whitespace, as Python `int(str)` does. -/
def pyStrip (s : List Char) : List Char :=
  ((s.dropWhile isPySpace).reverse.dropWhile isPySpace).reverse

/-- Model of Python `int(s)` for a string argument in base 10: optional
sign after stripping whitespace, then a digit run; anything else raises
`ValueError`. -/
def pyIntOfString (s : String) : Except String Int :=
  match pyStrip s.data with
  | '+' :: r =>
    if pyDigits r then .ok (Int.ofNat (digitsVal r))
    else .error ("invalid literal for int() with base 10: " ++ s)
  | '-' :: r =>
    if pyDigits r then .ok (-(Int.ofNat (digitsVal r)))
    else .error ("invalid literal for int() with base 10: " ++ s)
  | r =>
    if pyDigits r then .ok (Int.ofNat (digitsVal r))
    else .error ("invalid literal for int() with base 10: " ++ s)

/-- Model of Python `int(v)` for the value returned by
`os.environ.get`: an integer is returned unchanged, a string is parsed. -/
def pyInt : PyVal → Except String Int
  | .str s => pyIntOfString s
  | .int n => .ok n

/-- `port = int(os.environ.get("PORT", 5000))` (app.py line 34). -/
def mainPort (env : String → Option String) : Except String Int :=
  pyInt (environGet env "PORT" (.int 5000))

/-- Arguments the `__main__` block passes to `app.run` (app.py line 35). -/
structure RunArgs where
  host : String
  port : Int
deriving DecidableEq

/-- The `__main__` block (app.py lines 32-35): compute the port, then
call `app.run(host="0.0.0.0", port=port, ...)`; a `ValueError` from
`int` propagates and the server is never started. -/
def mainRun (env : String → Option String) : Except String RunArgs :=
  (mainPort env).map (fun p => { host := "0.0.0.0", port := p })

/-! ### Spec-side definitions

These follow the wording of the specification, to be compared with the
definitions above that were translated from the source. -/

/-- Spec-side predicate: the name ends with the given suffix
("entries ... whose name ends with the configured audio suffix"). -/
def endsWithSuffix (suffix : String) (name : String) : Bool :=
  suffix.data.isSuffixOf name.data

/-- Spec-side description of the audio catalog: the lexicographically
sorted list of exactly those directory entries whose name ends with
`".mp3"`. -/
def audioFileListSpec (entries : List String) : List String :=
  pySorted (entries.filter (fun n => endsWithSuffix ".mp3" n))

/-! ### Properties of the string order -/

theorem lexLe_refl : ∀ l : List Char, lexLe l l = true
  | [] => rfl
  | _ :: as => by simp [lexLe, lexLe_refl as]

theorem lexLe_total : ∀ l₁ l₂ : List Char, lexLe l₁ l₂ = true ∨ lexLe l₂ l₁ = true
  | [], _ => .inl rfl
  | _ :: _, [] => .inr rfl
  | a :: as, b :: bs => by
    by_cases hab : a = b
    · subst hab
      simpa [lexLe] using lexLe_total as bs
    · rcases lt_or_gt_of_ne hab with h | h
      · exact .inl (by simp [lexLe, hab, h])
      · exact .inr (by simp [lexLe, Ne.symm hab, h])

theorem lexLe_trans :
    ∀ l₁ l₂ l₃ : List Char,
      lexLe l₁ l₂ = true → lexLe l₂ l₃ = true → lexLe l₁ l₃ = true
  | [], _, _, _, _ => rfl
  | _ :: _, [], _, h₁, _ => by simp [lexLe] at h₁
  | _ :: _, _ :: _, [], _, h₂ => by simp [lexLe] at h₂
  | a :: as, b :: bs, c :: cs, h₁, h₂ => by
    by_cases hab : a = b <;> by_cases hbc : b = c
    · subst hab; subst hbc
      simp only [lexLe, if_pos rfl] at h₁ h₂ ⊢
      exact lexLe_trans as bs cs h₁ h₂
    · subst hab
      simp only [lexLe, if_neg hbc] at h₂ ⊢
      exact h₂
    · subst hbc
      simp only [lexLe, if_neg hab] at h₁ ⊢
      exact h₁
    · simp only [lexLe, if_neg hab, if_neg hbc, decide_eq_true_eq] at h₁ h₂
      have hac : a < c := lt_trans h₁ h₂
      simp [lexLe, ne_of_lt hac, hac]

theorem lexLe_antisymm :
    ∀ l₁ l₂ : List Char, lexLe l₁ l₂ = true → lexLe l₂ l₁ = true → l₁ = l₂
  | [], [], _, _ => rfl
  | [], _ :: _, _, h₂ => by simp [lexLe] at h₂
  | _ :: _, [], h₁, _ => by simp [lexLe] at h₁
  | a :: as, b :: bs, h₁, h₂ => by
    by_cases hab : a = b
    · subst hab
      simp only [lexLe, if_pos rfl] at h₁ h₂
      rw [lexLe_antisymm as bs h₁ h₂]
    · simp only [lexLe, if_neg hab, if_neg (Ne.symm hab), decide_eq_true_eq] at h₁ h₂
      exact absurd h₂ (lt_asymm h₁)

instance : IsTotal String strLeRel :=
  ⟨fun a b => lexLe_total a.data b.data⟩

instance : IsTrans String strLeRel :=
  ⟨fun a b c => lexLe_trans a.data b.data c.data⟩

instance : IsAntisymm String strLeRel := by
  refine ⟨fun a b h₁ h₂ => ?_⟩
  cases a
  cases b
  exact congrArg String.mk (lexLe_antisymm _ _ h₁ h₂)

instance : IsRefl String strLeRel :=
  ⟨fun a => lexLe_refl a.data⟩

/-- The executable comparator agrees with the lexicographic order on
`List Char`: a `lexLe`-smaller list is never lexicographically greater. -/
theorem not_lex_of_lexLe :
    ∀ l₁ l₂ : List Char, lexLe l₁ l₂ = true → ¬ List.Lex (· < ·) l₂ l₁
  | _ :: _, [], h₁, List.Lex.nil => by simp [lexLe] at h₁
  | a :: as, _ :: bs, h₁, List.Lex.cons h => by
    simp only [lexLe, if_pos rfl] at h₁
    exact not_lex_of_lexLe as bs h₁ h
  | a :: as, b :: bs, h₁, List.Lex.rel h => by
    by_cases hab : a = b
    · subst hab
      exact lt_irrefl a h
    · simp only [lexLe, if_neg hab, decide_eq_true_eq] at h₁
      exact lt_asymm h₁ h

/-- The executable comparator implies Mathlib's linear order on
`String`, so `pySorted` output is lexicographically sorted also in the
sense of `(· ≤ ·)`. -/
theorem le_of_strLeRel {a b : String} (h : strLeRel a b) : a ≤ b := by
  rw [String.le_iff_toList_le]
  exact not_lt.mp (fun hlt => not_lex_of_lexLe a.data b.data h hlt)

/-! ### Properties of `pySorted` -/

theorem pySorted_sorted (l : List String) : (pySorted l).Sorted strLeRel :=
  List.sorted_insertionSort strLeRel l

theorem pySorted_perm (l : List String) : (pySorted l).Perm l :=
  List.perm_insertionSort strLeRel l

/-- Sorting is invariant under permutation of the input: two sorted
lists that are permutations of each other are equal. -/
theorem pySorted_congr_perm {l₁ l₂ : List String} (h : l₁.Perm l₂) :
    pySorted l₁ = pySorted l₂ :=
  List.eq_of_perm_of_sorted
    ((pySorted_perm l₁).trans (h.trans (pySorted_perm l₂).symm))
    (pySorted_sorted l₁) (pySorted_sorted l₂)

/-! ### Properties of the pattern matcher -/

theorem tryTails_eq_any (f : List Char → Bool) :
    ∀ s : List Char, tryTails f s = s.tails.any f
  | [] => by simp [tryTails]
  | c :: cs => by
    rw [List.tails_cons]
    simp [tryTails, tryTails_eq_any f cs]

/-- On a pattern with no wildcard, the matcher is an equality test. -/
theorem fnmatchChars_literal :
    ∀ l : List Char, (∀ c ∈ l, c ≠ '*' ∧ c ≠ '?') →
      ∀ s : List Char, fnmatchChars l s = decide (s = l)
  | [], _, s => by cases s <;> simp [fnmatchChars]
  | p :: ps, h, s => by
    have hp : p ≠ '*' ∧ p ≠ '?' := h p (by simp)
    have hps : ∀ c ∈ ps, c ≠ '*' ∧ c ≠ '?' := fun c hc => h c (by simp [hc])
    cases s with
    | nil => simp [fnmatchChars, hp.1]
    | cons c cs =>
      simp only [fnmatchChars, if_neg hp.1]
      rw [fnmatchChars_literal ps hps cs]
      simp [hp.2, List.cons.injEq, eq_comm, Bool.and_comm]

/-- The name test performed by the program's glob: `"*.mp3"` matches a
name exactly when the name ends with `".mp3"`.  In particular `*`
absorbs an arbitrary prefix of the name, a leading dot included. -/
theorem globMatch_eq_endsWith (n : String) :
    globMatch "*.mp3" n = endsWithSuffix ".mp3" n := by
  have hstep : globMatch "*.mp3" n
      = tryTails (fnmatchChars (".mp3" : String).data) n.data := by
    simp [globMatch, fnmatchChars]
  rw [hstep, tryTails_eq_any, Bool.eq_iff_iff, endsWithSuffix, List.isSuffixOf]
  constructor
  · intro h
    obtain ⟨t, ht, hEq⟩ := List.any_eq_true.mp h
    rw [fnmatchChars_literal _ (by decide) t] at hEq
    have ht' : (".mp3" : String).data <:+ n.data := by
      rw [← of_decide_eq_true hEq]
      exact (List.mem_tails t n.data).mp ht
    exact List.isPrefixOf_iff_prefix.mpr ( List.reverse_prefix.mpr ht')
  · intro h
    have hsuf : (".mp3" : String).data <:+ n.data :=
      List.reverse_prefix.mp ( List.isPrefixOf_iff_prefix.mp h)
    refine List.any_eq_true.mpr ⟨(".mp3" : String).data, ?_, ?_⟩
    · exact (List.mem_tails _ n.data).mpr hsuf
    · rw [fnmatchChars_literal _ (by decide)]
      simp

/-! ### Characterization of the startup enumeration -/

theorem map_name_map_child (dir : PyPath) :
    ∀ l : List String, (l.map dir.child).map PyPath.name = l
  | [] => rfl
  | n :: ns => by
    simp only [List.map_cons, map_name_map_child dir ns]
    congr 1
    show (dir.parts ++ [n]).getLast?.getD "" = n
    rw [List.getLast?_concat]
    rfl

/-- Evaluating app.py line 17 against a present directory: the result
is the sorted list of the scandir entries matched by `"*.mp3"`. -/
theorem AUDIO_FILES_present (dir : PyPath) (D : List String) :
    AUDIO_FILES dir (.present D) =
      .ok (pySorted (D.filter (fun n => globMatch "*.mp3" n))) := by
  simp [AUDIO_FILES, pathGlob, DirState.isDir, scandirResult, Except.map,
    map_name_map_child dir]

/-- The same, phrased with the specification's suffix filter. -/
theorem AUDIO_FILES_present_spec (dir : PyPath) (D : List String) :
    AUDIO_FILES dir (.present D) = .ok (audioFileListSpec D) := by
  rw [AUDIO_FILES_present, audioFileListSpec,
    List.filter_congr (fun n _ => globMatch_eq_endsWith n)]

theorem audioFileListSpec_sorted (D : List String) :
    (audioFileListSpec D).Sorted (· ≤ ·) :=
  (pySorted_sorted _).imp (fun h => le_of_strLeRel h)

theorem audioFileListSpec_perm (D : List String) :
    (audioFileListSpec D).Perm (D.filter (fun n => endsWithSuffix ".mp3" n)) :=
  pySorted_perm _

/-! ### Claims -/

/-- C1: for every directory state `D` (a set of filenames, mixed-case
extensions such as `.MP3` included), the `AUDIO_FILES` list computed at
startup equals the lexicographically sorted list of exactly those
entries of `D` whose name ends with the configured audio suffix
`".mp3"`, with every non-matching entry excluded: the enumeration
succeeds with a list that is sorted under the string order and is a
permutation of (exactly) the `".mp3"`-suffixed entries of `D`. -/
theorem audioFileList_eq_sorted_mp3_filter (dir : PyPath) (D : List String) :
    AUDIO_FILES dir (.present D) = .ok (audioFileListSpec D) ∧
    (audioFileListSpec D).Sorted (· ≤ ·) ∧
    (audioFileListSpec D).Perm (D.filter (fun n => endsWithSuffix ".mp3" n)) :=
  ⟨AUDIO_FILES_present_spec dir D, audioFileListSpec_sorted D,
    audioFileListSpec_perm D⟩

/-- C2 counterexample: with the audio directory missing, the startup
enumeration does not raise: `pathlib`'s selector returns an empty
iterator for a non-directory parent, so module import completes with an
empty `AUDIO_FILES` rather than aborting. -/
theorem startup_missing_dir_succeeds :
    startup DirState.missing = Except.ok ⟨STATION_COUNT, []⟩ := rfl

/-- C2 amended: if the audio storage directory does not exist or is not
readable, the startup enumeration raises no error at all — the missing
directory yields an empty iterator and a `PermissionError` from scandir
is swallowed by `pathlib` — so startup completes with an empty
`AUDIO_FILES`; indeed startup succeeds on every directory state. -/
theorem startup_total :
    startup DirState.missing = Except.ok ⟨STATION_COUNT, []⟩ ∧
    startup DirState.unreadable = Except.ok ⟨STATION_COUNT, []⟩ ∧
    ∀ d : DirState, ∃ st : ServerState, startup d = Except.ok st := by
  refine ⟨rfl, rfl, fun d => ?_⟩
  cases d with
  | missing => exact ⟨_, rfl⟩
  | unreadable => exact ⟨_, rfl⟩
  | present D => exact ⟨_, by rw [startup, AUDIO_FILES_present_spec]; rfl⟩

/-- C3: whatever directory state the process started from, the GET `/`
handler renders the page with station count exactly 4, independent of
the length or contents of the audio file list. -/
theorem index_station_count_four (d : DirState) (st : ServerState)
    (h : startup d = Except.ok st) : (index st).stationCount = 4 := by
  cases d with
  | missing =>
    cases h
    rfl
  | unreadable =>
    cases h
    rfl
  | present D =>
    rw [startup, AUDIO_FILES_present_spec] at h
    cases h
    rfl

/-- Witness for C3 at a concrete directory state. -/
theorem index_station_count_four_witness :
    startup (.present ["a.mp3"]) = Except.ok ⟨STATION_COUNT, ["a.mp3"]⟩ ∧
    (index ⟨STATION_COUNT, ["a.mp3"]⟩).stationCount = 4 :=
  ⟨rfl,
    index_station_count_four (.present ["a.mp3"]) ⟨STATION_COUNT, ["a.mp3"]⟩ rfl⟩

/-- C4: if the audio directory is present but empty or contains no
entry ending in `".mp3"`, startup succeeds with an empty `AUDIO_FILES`,
and a GET `/` returns a success response rendering an empty file list;
no error is raised. -/
theorem empty_catalog_success (D : List String)
    (h : ∀ n ∈ D, endsWithSuffix ".mp3" n = false) :
    ∃ st : ServerState, startup (.present D) = Except.ok st ∧
      st.audioFiles = [] ∧ (index st).status = 200 ∧
      (index st).audioFiles = [] := by
  have hfilter : D.filter (fun n => endsWithSuffix ".mp3" n) = [] :=
    List.filter_eq_nil_iff.mpr (fun n hn => by simp [h n hn])
  have hspec : audioFileListSpec D = [] := by
    rw [audioFileListSpec, hfilter]
    rfl
  refine ⟨⟨STATION_COUNT, []⟩, ?_, rfl, rfl, rfl⟩
  rw [startup, AUDIO_FILES_present_spec, hspec]
  rfl

/-- Witness for C4 at a concrete non-matching directory listing. -/
theorem empty_catalog_success_witness :
    (∀ n ∈ ["notes.txt", "cover.jpg"], endsWithSuffix ".mp3" n = false) ∧
    ∃ st : ServerState,
      startup (.present ["notes.txt", "cover.jpg"]) = Except.ok st ∧
      st.audioFiles = [] ∧ (index st).status = 200 ∧
      (index st).audioFiles = [] :=
  ⟨by decide, empty_catalog_success ["notes.txt", "cover.jpg"] (by decide)⟩

/-- C5: startup enumeration is deterministic and independent of the
order in which the directory listing returns its entries: two scandir
listings of the same directory contents (permutations of each other)
produce identical ordered `AUDIO_FILES` output. -/
theorem enumeration_deterministic (dir : PyPath) (D₁ D₂ : List String)
    (h : D₁.Perm D₂) :
    AUDIO_FILES dir (.present D₁) = AUDIO_FILES dir (.present D₂) := by
  rw [AUDIO_FILES_present, AUDIO_FILES_present,
    pySorted_congr_perm (h.filter (fun n => globMatch "*.mp3" n))]

/-- Witness for C5 on two orderings of one directory listing. -/
theorem enumeration_deterministic_witness :
    (["b.mp3", "a.mp3", "x.txt"] : List String).Perm
        ["x.txt", "a.mp3", "b.mp3"] ∧
    AUDIO_FILES AUDIO_DIR (.present ["b.mp3", "a.mp3", "x.txt"]) =
      AUDIO_FILES AUDIO_DIR (.present ["x.txt", "a.mp3", "b.mp3"]) :=
  ⟨by decide,
    enumeration_deterministic AUDIO_DIR ["b.mp3", "a.mp3", "x.txt"]
      ["x.txt", "a.mp3", "b.mp3"] (by decide)⟩

/-- C6: when the scandir entry names carry no directory separator (as
directory entries never do), every element of `AUDIO_FILES` is such a
base name — no directory prefix is prepended — and the list is sorted
in ascending lexicographic order. -/
theorem audioFileList_base_names_sorted (dir : PyPath) (D : List String)
    (hD : ∀ n ∈ D, ('/' : Char) ∉ n.data) :
    ∃ L, AUDIO_FILES dir (.present D) = Except.ok L ∧
      (∀ x ∈ L, ('/' : Char) ∉ x.data) ∧ (∀ x ∈ L, x ∈ D) ∧
      L.Sorted (· ≤ ·) := by
  refine ⟨audioFileListSpec D, AUDIO_FILES_present_spec dir D, ?_, ?_,
    audioFileListSpec_sorted D⟩
  · intro x hx
    have hx' : x ∈ D.filter (fun n => endsWithSuffix ".mp3" n) :=
      (audioFileListSpec_perm D).mem_iff.mp hx
    exact hD x (List.mem_of_mem_filter hx')
  · intro x hx
    have hx' : x ∈ D.filter (fun n => endsWithSuffix ".mp3" n) :=
      (audioFileListSpec_perm D).mem_iff.mp hx
    exact List.mem_of_mem_filter hx'

/-- Witness for C6 at a concrete directory listing. -/
theorem audioFileList_base_names_sorted_witness :
    (∀ n ∈ ["b.mp3", "a.mp3"], ('/' : Char) ∉ n.data) ∧
    ∃ L, AUDIO_FILES AUDIO_DIR (.present ["b.mp3", "a.mp3"]) = Except.ok L ∧
      (∀ x ∈ L, ('/' : Char) ∉ x.data) ∧
      (∀ x ∈ L, x ∈ (["b.mp3", "a.mp3"] : List String)) ∧
      L.Sorted (· ≤ ·) :=
  ⟨by decide,
    audioFileList_base_names_sorted AUDIO_DIR ["b.mp3", "a.mp3"] (by decide)⟩

/-- C7: the process-wide state is produced once at startup and no
request mutates or recomputes it — after any number of GET `/`
requests the state equals the startup state, and every response is the
pure function `index` of that state. -/
theorem handler_preserves_state (st : ServerState) (n : Nat) :
    (handleRequests st n).1 = st ∧
    (handleRequests st n).2 = List.replicate n (index st) := by
  induction n with
  | zero => exact ⟨rfl, rfl⟩
  | succ k ih =>
    refine ⟨?_, ?_⟩
    · show (handleRequests st k).1 = st
      exact ih.1
    · show index st :: (handleRequests st k).2 = List.replicate (k + 1) (index st)
      rw [ih.2, List.replicate_succ]

/-- C8: when run as the main program, the listen port is the parsed
value of the `PORT` environment variable when it is present, defaults
to 5000 when it is absent, and the server binds to all interfaces
(`0.0.0.0`). -/
theorem main_host_and_port (env : String → Option String) :
    (env "PORT" = none →
      mainRun env = Except.ok { host := "0.0.0.0", port := 5000 }) ∧
    (∀ s n, env "PORT" = some s → pyIntOfString s = Except.ok n →
      mainRun env = Except.ok { host := "0.0.0.0", port := n }) := by
  constructor
  · intro h
    rw [mainRun, mainPort, environGet, h]
    rfl
  · intro s n h hs
    rw [mainRun, mainPort, environGet, h]
    show Except.map _ (pyIntOfString s) = _
    rw [hs]
    rfl

/-- Witness for C8: the default with no environment, and an explicit
`PORT` value. -/
theorem main_host_and_port_witness :
    mainRun (fun _ => none) = Except.ok { host := "0.0.0.0", port := 5000 } ∧
    mainRun (fun k => if k = "PORT" then some "8080" else none) =
      Except.ok { host := "0.0.0.0", port := 8080 } :=
  ⟨(main_host_and_port (fun _ => none)).1 rfl,
    (main_host_and_port (fun k => if k = "PORT" then some "8080" else none)).2
      "8080" 8080 rfl rfl⟩

/-- C9: if `PORT` is set to a string that `int()` rejects, the
conversion error propagates out of the `__main__` block and the server
never starts; in particular the 5000 default is not applied to a
malformed value. -/
theorem malformed_port_aborts (env : String → Option String) (s e : String)
    (h1 : env "PORT" = some s) (h2 : pyIntOfString s = Except.error e) :
    mainRun env = Except.error e := by
  rw [mainRun, mainPort, environGet, h1]
  show Except.map _ (pyIntOfString s) = _
  rw [h2]
  rfl

/-- Witness for C9 at a concrete malformed `PORT` value. -/
theorem malformed_port_aborts_witness :
    pyIntOfString "later" =
      Except.error "invalid literal for int() with base 10: later" ∧
    mainRun (fun k => if k = "PORT" then some "later" else none) =
      Except.error "invalid literal for int() with base 10: later" :=
  ⟨rfl,
    malformed_port_aborts (fun k => if k = "PORT" then some "later" else none)
      "later" "invalid literal for int() with base 10: later" rfl rfl⟩

/-- C10 counterexample: a dot-initial name ending in `".mp3"` is NOT
excluded — globbing the singleton listing `[".hidden.mp3"]` yields
`[".hidden.mp3"]`, not `[]`: `pathlib` compiles `"*.mp3"` with
`fnmatch.translate`, whose `*` matches a leading dot (the hidden-file
special case lives in the `glob` module, which `pathlib` does not use). -/
theorem hidden_file_included :
    AUDIO_FILES AUDIO_DIR (.present [".hidden.mp3"]) =
      Except.ok [".hidden.mp3"] := rfl

/-- C10 amended: a file whose name begins with a dot (e.g.
`.hidden.mp3`) and ends with `".mp3"` is included in `AUDIO_FILES`,
because `pathlib.Path.glob` matches names against
`fnmatch.translate("*.mp3")`, where `*` also matches names starting
with a dot. -/
theorem dot_files_included (dir : PyPath) (D : List String) (n : String)
    (h1 : n ∈ D) (h2 : endsWithSuffix ".mp3" n = true) :
    ∃ L, AUDIO_FILES dir (.present D) = Except.ok L ∧ n ∈ L := by
  refine ⟨audioFileListSpec D, AUDIO_FILES_present_spec dir D, ?_⟩
  exact (audioFileListSpec_perm D).mem_iff.mpr
    (List.mem_filter.mpr ⟨h1, h2⟩)

/-- Witness for the amended C10 at the hidden file itself. -/
theorem dot_files_included_witness :
    (".hidden.mp3" ∈ ([".hidden.mp3", "song.mp3"] : List String)) ∧
    endsWithSuffix ".mp3" ".hidden.mp3" = true ∧
    ∃ L, AUDIO_FILES AUDIO_DIR (.present [".hidden.mp3", "song.mp3"]) =
        Except.ok L ∧ ".hidden.mp3" ∈ L :=
  ⟨by decide, by decide,
    dot_files_included AUDIO_DIR [".hidden.mp3", "song.mp3"] ".hidden.mp3"
      (by decide) (by decide)⟩

end RadioMixer
